import Mathlib

/-!
Shallow embedding of the scene-stack orchestration core of `mini-arcade-core`:
the scene stack (`runtime/adapters.py`, class `SceneAdapter`), the command
queue (`commands.py`, class `CommandQueue`), and one iteration of the frame
scheduler loop (`game.py`, method `Game.run`).

Render packets are opaque values; we model them as natural numbers.  A scene's
runtime identity (python `id(scene)`) is modelled as a natural number field
`sid`; the packet cache `dict[int, RenderPacket]` becomes a function
`Nat → Option RenderPacket`.  Delta times are rationals (the code never does
anything with `dt` beyond passing it through and comparing it for pacing,
which we do not model).  Lifecycle hooks (`on_enter` / `on_exit`) are recorded
in explicit event traces instead of being side effects.
-/

namespace MiniArcade

/-- A render packet is opaque to the core (an ordered list of draw ops replayed
by the pipeline); we model it as an opaque numeric value. -/
abbrev RenderPacket := Nat

/-- Modelled from the spec: `ScenePolicy` is imported by `runtime/adapters.py`
from `runtime/services.py` but its class body is not among the provided
sources.  Spec §3: `policy.is_opaque` — nothing below is visible;
`policy.blocks_update` — ticking stops at this entry.  Spec §4.1: the default
policy is non-opaque, non-blocking.  (Field names are camel-cased.) -/
structure ScenePolicy where
  isOpaque : Bool := false
  blocksUpdate : Bool := false
deriving DecidableEq, Repr

/-- Modelled from the spec: `InputFrame` (`runtime/input_frame.py` is not among
the provided sources).  Spec §3: immutable per-frame snapshot of frame index,
delta time, held/pressed/released key sets and a quit flag; the neutral
variant keeps frame index and delta but has empty key sets and `quit=false`,
which we model as the dataclass defaults used by `_neutral_input`. -/
structure InputFrame where
  frame_index : Nat
  dt : ℚ
  keys_down : List Nat := []
  keys_pressed : List Nat := []
  keys_released : List Nat := []
  quit : Bool := false
deriving DecidableEq, Repr

/-- Modelled from the spec: the scene capability interface (spec §6) —
concrete scenes are external.  `sid` is the scene instance's runtime identity
(python `id(scene)`, the packet-cache key); `tick` consumes an input snapshot
and a delta and produces a render packet.  `on_enter`/`on_exit` are modelled
as trace events, not fields. -/
structure Scene where
  sid : Nat
  tick : InputFrame → ℚ → RenderPacket

/-- Modelled from the spec: `SceneEntry` is imported by `runtime/adapters.py`
from `runtime/services.py` but its class body is not among the provided
sources.  Spec §3 (StackEntry): scene id, owned scene instance, overlay flag,
layering policy — exactly the four keyword arguments `SceneAdapter.push`
passes to its constructor. -/
structure SceneEntry where
  scene_id : String
  scene : Scene
  is_overlay : Bool
  policy : ScenePolicy

/-- Lifecycle hook invocations, recorded as an explicit trace.  `enter s` is
`scene.on_enter()` on the scene with identity `s`; `exitHook s` is
`scene.on_exit()`. -/
inductive HookEvent where
  | enter (s : Nat)
  | exitHook (s : Nat)
deriving DecidableEq, Repr

/-- The scene stack `SceneAdapter._stack`: a python list, bottom first, top =
last element.  (`_StackItem` is a trivial one-field wrapper around the entry;
we inline it.) -/
abbrev SceneStack := List SceneEntry

/-- Helper mirroring the shared shape of the two top-down scans in
`SceneAdapter` (`visible_entries` and `update_entries`): walk the given list,
collect elements, and stop after including the first element satisfying `p`
(inclusive). -/
def scanStop (p : α → Bool) : List α → List α
  | [] => []
  | x :: xs => if p x then [x] else x :: scanStop p xs

/-- `SceneAdapter.visible_entries` (`runtime/adapters.py` lines 117–123): scan
indices from the top (`len-1`) down to `0`; at the first entry with
`policy.is_opaque` return the python slice `entries[idx:]` (that entry up to
the top); if none is opaque return the whole stack.  Scanning top-down and
stopping at the first opaque entry is `scanStop` on the reversed stack;
reversing back yields the slice `entries[idx:]` in bottom-to-top order. -/
def visible_entries (stack : SceneStack) : List SceneEntry :=
  (scanStop (fun e => e.policy.isOpaque) stack.reverse).reverse

/-- `SceneAdapter.update_entries` (lines 125–134): `vis = visible_entries()`;
if empty return `[]`; else walk `reversed(vis)` (top→down) appending entries
and `break` after the first with `policy.blocks_update`; return the collected
list reversed (bottom→top). -/
def update_entries (stack : SceneStack) : List SceneEntry :=
  let vis := visible_entries stack
  if vis.isEmpty then []
  else (scanStop (fun e => e.policy.blocksUpdate) vis.reverse).reverse

/-- `SceneAdapter.input_entry` (lines 136–138): `vis[-1] if vis else None`. -/
def input_entry (stack : SceneStack) : Option SceneEntry :=
  (visible_entries stack).getLast?

/-- `SceneAdapter.pop` (lines 104–108): if the stack is empty, return (no-op,
no exception); otherwise remove the top (last) item and call its scene's
`on_exit` hook.  Returns the new stack and the trace of hook calls. -/
def popOp (stack : SceneStack) : SceneStack × List HookEvent :=
  match stack.getLast? with
  | none => (stack, [])
  | some item => (stack.dropLast, [HookEvent.exitHook item.scene.sid])

lemma popOp_length_lt (stack : SceneStack) (h : ¬ stack.isEmpty) :
    (popOp stack).1.length < stack.length := by
  cases stack using List.reverseRecOn with
  | nil => simp at h
  | append_singleton xs x =>
      simp [popOp, List.getLast?_concat]

/-- `SceneAdapter.clean` (lines 110–112): `while self._stack: self.pop()` —
pop repeatedly until the stack is empty, accumulating the exit-hook trace. -/
def cleanOp (stack : SceneStack) : SceneStack × List HookEvent :=
  if h : stack.isEmpty then (stack, [])
  else
    have := popOp_length_lt stack h
    let p := popOp stack
    let r := cleanOp p.1
    (r.1, p.2 ++ r.2)
termination_by stack.length
decreasing_by exact popOp_length_lt stack h

/-- Result of a stack mutation that may hit a scene-factory failure
(`registry.create` raising): `ok` is a normal return, `err` a propagated
exception; both carry the stack state and the hook trace at that point
(python exceptions do not roll mutations back). -/
inductive OpResult where
  | ok (stack : SceneStack) (hooks : List HookEvent)
  | err (stack : SceneStack) (hooks : List HookEvent)

/-- The external scene factory (`SceneRegistry.create`): resolves a scene id
to a fresh scene instance, or fails (`none` models the raised resolution
error, spec §7). -/
abbrev Registry := String → Option Scene

/-- `SceneAdapter.push` (lines 80–102): default the policy if none is given
(base scenes block nothing), resolve the scene via the factory (a failure
propagates before any mutation), call the new scene's `on_enter`, then append
a new entry to the top of the stack. -/
def pushOp (registry : Registry) (stack : SceneStack) (scene_id : String)
    (as_overlay : Bool) (policy : Option ScenePolicy) : OpResult :=
  let pol := policy.getD {}
  match registry scene_id with
  | none => OpResult.err stack []
  | some scene =>
      OpResult.ok
        (stack ++ [{ scene_id := scene_id, scene := scene,
                     is_overlay := as_overlay, policy := pol }])
        [HookEvent.enter scene.sid]

/-- `SceneAdapter.change` (lines 76–78): `self.clean()` then
`self.push(scene_id, as_overlay=False)`. -/
def changeOp (registry : Registry) (stack : SceneStack) (scene_id : String) :
    OpResult :=
  let c := cleanOp stack
  match pushOp registry c.1 scene_id false none with
  | OpResult.ok s tr => OpResult.ok s (c.2 ++ tr)
  | OpResult.err s tr => OpResult.err s (c.2 ++ tr)

/-! ## Frame scheduler (`game.py`, `Game.run`) -/

/-- `_neutral_input` (`game.py` lines 74–75): an `InputFrame` built from only
a frame index and a delta; the remaining fields take their defaults (empty
key sets, `quit=False`). -/
def _neutral_input (frame_index : Nat) (dt : ℚ) : InputFrame :=
  { frame_index := frame_index, dt := dt }

/-- The packet cache `packet_cache : dict[int, RenderPacket]` of `Game.run`,
keyed by scene runtime identity (`id(scene)`, our `Scene.sid`). -/
abbrev PacketCache := Nat → Option RenderPacket

/-- `packet_cache[k] = v`. -/
def cacheInsert (c : PacketCache) (k : Nat) (v : RenderPacket) : PacketCache :=
  fun j => if j = k then some v else c j

/-- The tick loop of `Game.run` (lines 175–184): for each entry of
`update_entries()` in order, choose the real input frame when the entry *is*
the resolved input entry and a neutral frame otherwise, tick the scene, and
store the packet in the cache under the scene's identity.  The python `is`
identity test is modelled as equality of scene identities (`sid`), which is
exact because each entry owns a distinct scene instance.  Returns the final
cache and the trace of `(sid, effective input)` tick calls in order. -/
def tickLoop (inputSid : Option Nat) (inp : InputFrame) (frame_index : Nat)
    (dt : ℚ) : List SceneEntry → PacketCache →
    PacketCache × List (Nat × InputFrame)
  | [], cache => (cache, [])
  | entry :: rest, cache =>
      let effective :=
        if some entry.scene.sid = inputSid then inp
        else _neutral_input frame_index dt
      let packet := entry.scene.tick effective dt
      let r := tickLoop inputSid inp frame_index dt rest
        (cacheInsert cache entry.scene.sid packet)
      (r.1, (entry.scene.sid, effective) :: r.2)

/-- The full tick phase of one frame: the tick loop run over
`update_entries()`, with the input entry resolved by `input_entry()`. -/
def tickPhase (stack : SceneStack) (inp : InputFrame) (frame_index : Nat)
    (dt : ℚ) (cache : PacketCache) : PacketCache × List (Nat × InputFrame) :=
  tickLoop ((input_entry stack).map (fun e => e.scene.sid)) inp frame_index dt
    (update_entries stack) cache

/-- The draw loop of `Game.run` (lines 186–196): for each entry of
`visible_entries()` in order, look up its packet in the cache; if absent,
bootstrap by ticking the scene once with a neutral zero-`dt` input frame and
cache the result; draw the packet.  Returns the final cache, the trace of
`(sid, packet)` draw calls in order, and the list of scene identities that
were bootstrap-ticked. -/
def drawLoop (frame_index : Nat) : List SceneEntry → PacketCache →
    PacketCache × List (Nat × RenderPacket) × List Nat
  | [], cache => (cache, [], [])
  | entry :: rest, cache =>
      match cache entry.scene.sid with
      | some packet =>
          let r := drawLoop frame_index rest cache
          (r.1, (entry.scene.sid, packet) :: r.2.1, r.2.2)
      | none =>
          let packet := entry.scene.tick (_neutral_input frame_index 0) 0
          let r := drawLoop frame_index rest
            (cacheInsert cache entry.scene.sid packet)
          (r.1, (entry.scene.sid, packet) :: r.2.1, entry.scene.sid :: r.2.2)

/-- The full draw phase of one frame: the draw loop over `visible_entries()`. -/
def drawPhase (stack : SceneStack) (frame_index : Nat) (cache : PacketCache) :
    PacketCache × List (Nat × RenderPacket) × List Nat :=
  drawLoop frame_index (visible_entries stack) cache

/-! ## Command queue (`commands.py`) -/

/-- `CommandQueue` (`commands.py` lines 118–144): a buffered list of pending
commands.  (The python list is untyped; we keep the element type generic.) -/
structure CommandQueue (α : Type) where
  _items : List α := []

/-- `CommandQueue.push`: append the command to the buffer. -/
def CommandQueue.push (q : CommandQueue α) (cmd : α) : CommandQueue α :=
  { _items := q._items ++ [cmd] }

/-- `CommandQueue.drain`: return the buffered list and reset the buffer to a
fresh empty list (`items = self._items; self._items = []; return items`). -/
def CommandQueue.drain (q : CommandQueue α) : List α × CommandQueue α :=
  (q._items, { _items := [] })

/-- The drain-and-execute step of `Game.run` (lines 198–200):
`for cmd in self._commands.drain(): cmd.execute(...)`, where executing a
command may itself enqueue further commands (`effect cmd` is the list a
command pushes, in order, while it executes).  Returns the batch that was
executed this frame and the queue as it stands afterwards. -/
def drainAndRun (effect : α → List α) (q : CommandQueue α) :
    List α × CommandQueue α :=
  let r := CommandQueue.drain q
  (r.1, r.1.foldl (fun acc c => (effect c).foldl CommandQueue.push acc) r.2)

/-- The deferred commands `Game.run` can drain (`commands.py`): quit, push,
pop, change (screenshot and other pass-through commands do not touch the
state we model, so they are omitted). -/
inductive Cmd where
  | quitCmd
  | pushScene (scene_id : String) (as_overlay : Bool)
  | popScene
  | changeScene (scene_id : String)
deriving DecidableEq, Repr

/-- The mutable state of `Game.run`'s loop: the scene stack, the packet
cache, the pending command queue, the frame index and the `_running` flag. -/
structure LoopState where
  stack : SceneStack
  cache : PacketCache
  queue : CommandQueue Cmd
  frame_index : Nat
  running : Bool

/-- Execute one drained command against the runtime services (`commands.py`:
`QuitCommand` → `scenes.quit()` → `Game.quit()` sets `_running = False`;
`PushSceneCommand` → `scenes.push`; `PopSceneCommand` → `scenes.pop`;
`ChangeSceneCommand` → `scenes.change`).  `none` models a factory failure
propagating out of `Game.run`. -/
def execCmd (registry : Registry) (st : LoopState) :
    Cmd → Option (LoopState × List HookEvent)
  | Cmd.quitCmd => some ({ st with running := false }, [])
  | Cmd.popScene =>
      let r := popOp st.stack
      some ({ st with stack := r.1 }, r.2)
  | Cmd.pushScene sid ov =>
      match pushOp registry st.stack sid ov none with
      | OpResult.ok s tr => some ({ st with stack := s }, tr)
      | OpResult.err _ _ => none
  | Cmd.changeScene sid =>
      match changeOp registry st.stack sid with
      | OpResult.ok s tr => some ({ st with stack := s }, tr)
      | OpResult.err _ _ => none

/-- Execute a drained batch in order, threading the loop state. -/
def execCmds (registry : Registry) :
    List Cmd → LoopState → Option (LoopState × List HookEvent)
  | [], st => some (st, [])
  | c :: cs, st =>
      match execCmd registry st c with
      | none => none
      | some (st1, tr1) =>
          match execCmds registry cs st1 with
          | none => none
          | some (st2, tr2) => some (st2, tr1 ++ tr2)

/-- The observable outcome of one iteration of `Game.run`'s while loop. -/
structure FrameResult where
  state : LoopState
  /-- `true` when the loop will not run another iteration (a `break`, or
  `_running` was cleared by an executed quit command). -/
  halted : Bool
  /-- `true` when a factory failure propagated out of command execution. -/
  errored : Bool
  tickTrace : List (Nat × InputFrame)
  drawTrace : List (Nat × RenderPacket)
  boots : List Nat
  drained : List Cmd
  hooks : List HookEvent

/-- One iteration of the `while self._running` loop of `Game.run`
(lines 156–205), with the per-frame `input_frame` and `dt` taken as inputs
(event polling and wall-clock measurement are external):

1. if `input_frame.quit`: push a `QuitCommand` and **`break`** (lines
   164–167) — nothing else in the frame runs;
2. resolve `input_entry()`; if `None`, `break` (lines 170–172);
3. tick phase over `update_entries()` (lines 175–184);
4. draw phase over `visible_entries()` (lines 186–196);
5. drain the command queue and execute the batch (lines 198–200);
6. advance the frame index (frame pacing not modelled). -/
def frameStep (registry : Registry) (st : LoopState) (inp : InputFrame)
    (dt : ℚ) : FrameResult :=
  if inp.quit then
    { state := { st with queue := st.queue.push Cmd.quitCmd },
      halted := true, errored := false, tickTrace := [], drawTrace := [],
      boots := [], drained := [], hooks := [] }
  else
    match input_entry st.stack with
    | none =>
        { state := st, halted := true, errored := false, tickTrace := [],
          drawTrace := [], boots := [], drained := [], hooks := [] }
    | some _ =>
        let t := tickPhase st.stack inp st.frame_index dt st.cache
        let d := drawPhase st.stack st.frame_index t.1
        let batch := st.queue.drain
        let st1 := { st with cache := d.1, queue := batch.2 }
        match execCmds registry batch.1 st1 with
        | none =>
            { state := st1, halted := true, errored := true,
              tickTrace := t.2, drawTrace := d.2.1, boots := d.2.2,
              drained := batch.1, hooks := [] }
        | some (st2, tr) =>
            { state := { st2 with frame_index := st2.frame_index + 1 },
              halted := !st2.running, errored := false,
              tickTrace := t.2, drawTrace := d.2.1, boots := d.2.2,
              drained := batch.1, hooks := tr }

/-! ## Helper lemmas about the top-down scans -/

lemma scanStop_pref (p : α → Bool) (l : List α) :
    ∃ t, scanStop p l ++ t = l := by
  induction l with
  | nil => exact ⟨[], rfl⟩
  | cons x xs ih =>
      by_cases h : p x
      · exact ⟨xs, by simp [scanStop, h]⟩
      · obtain ⟨t, ht⟩ := ih
        exact ⟨t, by simp [scanStop, h, ht]⟩

lemma scanStop_eq_self (p : α → Bool) (l : List α)
    (h : ∀ x ∈ l, p x = false) : scanStop p l = l := by
  induction l with
  | nil => rfl
  | cons x xs ih =>
      have hx : p x = false := h x (List.mem_cons_self _ _)
      simp [scanStop, hx, ih (fun y hy => h y (List.mem_cons_of_mem _ hy))]

lemma scanStop_split (p : α → Bool) (l : List α)
    (h : ∃ x ∈ l, p x = true) :
    ∃ ys b, scanStop p l = ys ++ [b] ∧ p b = true ∧
      ∀ y ∈ ys, p y = false := by
  induction l with
  | nil => simp at h
  | cons x xs ih =>
      by_cases hx : p x
      · exact ⟨[], x, by simp [scanStop, hx], hx, by simp⟩
      · have hxs : ∃ y ∈ xs, p y = true := by
          obtain ⟨y, hy, hpy⟩ := h
          rcases List.mem_cons.mp hy with rfl | hy'
          · exact absurd hpy hx
          · exact ⟨y, hy', hpy⟩
        obtain ⟨ys, b, heq, hpb, hys⟩ := ih hxs
        refine ⟨x :: ys, b, by simp [scanStop, hx, heq], hpb, ?_⟩
        intro y hy
        rcases List.mem_cons.mp hy with rfl | hy'
        · simpa using hx
        · exact hys y hy'

lemma scanStop_head (p : α → Bool) (l : List α) :
    (scanStop p l).head? = l.head? := by
  cases l with
  | nil => rfl
  | cons x xs => by_cases h : p x <;> simp [scanStop, h]

/-- A prefix of `l`, reversed, is a suffix of `l.reverse`. -/
lemma rev_pref_suff {l₁ t l : List α} (h : l₁ ++ t = l) :
    t.reverse ++ l₁.reverse = l.reverse := by
  rw [← h, List.reverse_append]

lemma scanStop_rev_suffix (p : α → Bool) (l : List α) :
    (scanStop p l.reverse).reverse <:+ l := by
  obtain ⟨t, ht⟩ := scanStop_pref p l.reverse
  refine ⟨t.reverse, ?_⟩
  have := rev_pref_suff ht
  simpa using this

lemma scanStop_rev_all (p : α → Bool) (l : List α)
    (h : ∀ x ∈ l, p x = false) : (scanStop p l.reverse).reverse = l := by
  rw [scanStop_eq_self p l.reverse (fun x hx => h x (List.mem_reverse.mp hx))]
  exact l.reverse_reverse

lemma scanStop_rev_tail (p : α → Bool) (l : List α) :
    ∀ x ∈ ((scanStop p l.reverse).reverse).tail, p x = false := by
  by_cases h : ∃ x ∈ l, p x = true
  · obtain ⟨ys, b, heq, _, hys⟩ := scanStop_split p l.reverse
      (by obtain ⟨x, hx, hpx⟩ := h; exact ⟨x, List.mem_reverse.mpr hx, hpx⟩)
    rw [heq]
    simp only [List.reverse_append, List.reverse_singleton, List.singleton_append,
      List.tail_cons]
    intro x hx
    exact hys x (List.mem_reverse.mp hx)
  · push_neg at h
    have hall : ∀ x ∈ l, p x = false := by
      intro x hx
      exact Bool.eq_false_iff.mpr (fun hc => (h x hx) hc)
    rw [scanStop_rev_all p l hall]
    intro x hx
    exact hall x (List.mem_of_mem_tail hx)

lemma scanStop_rev_head (p : α → Bool) (l : List α)
    (h : ∃ x ∈ l, p x = true) :
    ∃ b rest, (scanStop p l.reverse).reverse = b :: rest ∧ p b = true := by
  obtain ⟨ys, b, heq, hpb, _⟩ := scanStop_split p l.reverse
    (by obtain ⟨x, hx, hpx⟩ := h; exact ⟨x, List.mem_reverse.mpr hx, hpx⟩)
  exact ⟨b, ys.reverse, by simp [heq], hpb⟩

lemma scanStop_rev_getLast (p : α → Bool) (l : List α) :
    ((scanStop p l.reverse).reverse).getLast? = l.getLast? := by
  rw [List.getLast?_reverse, scanStop_head, List.head?_reverse]

/-- `update_entries` with the redundant empty-visible branch folded away. -/
lemma update_entries_eq (stack : SceneStack) :
    update_entries stack =
      (scanStop (fun e => e.policy.blocksUpdate)
        (visible_entries stack).reverse).reverse := by
  unfold update_entries
  by_cases h : (visible_entries stack).isEmpty
  · rw [List.isEmpty_iff] at h
    simp [h, scanStop]
  · simp [h]

/-! ## Helper lemmas about the tick and draw loops -/

lemma tickLoop_trace (iSid : Option Nat) (inp : InputFrame) (fi : Nat)
    (dt : ℚ) (entries : List SceneEntry) (cache : PacketCache) :
    (tickLoop iSid inp fi dt entries cache).2 =
      entries.map (fun e => (e.scene.sid,
        if some e.scene.sid = iSid then inp else _neutral_input fi dt)) := by
  induction entries generalizing cache with
  | nil => rfl
  | cons e rest ih => simp [tickLoop, ih]

lemma tickLoop_cache_skip (iSid : Option Nat) (inp : InputFrame) (fi : Nat)
    (dt : ℚ) (entries : List SceneEntry) (cache : PacketCache) (k : Nat)
    (hk : k ∉ entries.map (fun e => e.scene.sid)) :
    (tickLoop iSid inp fi dt entries cache).1 k = cache k := by
  induction entries generalizing cache with
  | nil => rfl
  | cons e rest ih =>
      simp only [List.map_cons, List.mem_cons, not_or] at hk
      simp [tickLoop, ih _ (by simpa using hk.2), cacheInsert, hk.1]

lemma tickLoop_cache_hit (iSid : Option Nat) (inp : InputFrame) (fi : Nat)
    (dt : ℚ) (entries : List SceneEntry) (cache : PacketCache)
    (hnd : (entries.map (fun e => e.scene.sid)).Nodup)
    (e : SceneEntry) (he : e ∈ entries) :
    (tickLoop iSid inp fi dt entries cache).1 e.scene.sid =
      some (e.scene.tick
        (if some e.scene.sid = iSid then inp else _neutral_input fi dt) dt) := by
  induction entries generalizing cache with
  | nil => simp at he
  | cons h rest ih =>
      simp only [List.map_cons, List.nodup_cons] at hnd
      rcases List.mem_cons.mp he with rfl | he'
      · have hk :
            e.scene.sid ∉ rest.map (fun e' => e'.scene.sid) := by
          simpa using hnd.1
        simp [tickLoop, tickLoop_cache_skip _ _ _ _ _ _ _ hk, cacheInsert]
      · simp [tickLoop, ih _ hnd.2 he']

lemma drawLoop_cache_mono (fi : Nat) (entries : List SceneEntry)
    (cache : PacketCache) (k : Nat) (p : RenderPacket)
    (hc : cache k = some p) :
    (drawLoop fi entries cache).1 k = some p := by
  induction entries generalizing cache with
  | nil => exact hc
  | cons e rest ih =>
      cases hce : cache e.scene.sid with
      | some q => simp [drawLoop, hce, ih _ hc]
      | none =>
          have hk : k ≠ e.scene.sid := fun h => by
            rw [h, hce] at hc; exact Option.noConfusion hc
          simp only [drawLoop, hce]
          exact ih _ (by simp [cacheInsert, hk, hc])

lemma drawLoop_draw_mem (fi : Nat) (entries : List SceneEntry)
    (cache : PacketCache) (p : RenderPacket) (e : SceneEntry)
    (he : e ∈ entries) (hc : cache e.scene.sid = some p) :
    (e.scene.sid, p) ∈ (drawLoop fi entries cache).2.1 := by
  induction entries generalizing cache with
  | nil => simp at he
  | cons h rest ih =>
      rcases List.mem_cons.mp he with rfl | he'
      · simp [drawLoop, hc]
      · cases hce : cache h.scene.sid with
        | some q => simp only [drawLoop, hce]; right; exact ih _ he' hc
        | none =>
            have hk : e.scene.sid ≠ h.scene.sid := fun hh => by
              rw [hh, hce] at hc; exact Option.noConfusion hc
            simp only [drawLoop, hce]
            right
            exact ih _ he' (by simp [cacheInsert, hk, hc])

lemma drawLoop_boots_sub (fi : Nat) (entries : List SceneEntry)
    (cache : PacketCache) (b : Nat)
    (hb : b ∈ (drawLoop fi entries cache).2.2) :
    b ∈ entries.map (fun e => e.scene.sid) := by
  induction entries generalizing cache with
  | nil => simp [drawLoop] at hb
  | cons e rest ih =>
      cases hce : cache e.scene.sid with
      | some q =>
          simp only [drawLoop, hce] at hb
          exact List.mem_cons_of_mem _ (ih _ hb)
      | none =>
          simp only [drawLoop, hce] at hb
          rcases List.mem_cons.mp hb with rfl | hb'
          · exact List.mem_cons_self _ _
          · exact List.mem_cons_of_mem _ (ih _ hb')

lemma drawLoop_bootstrap (fi : Nat) (entries : List SceneEntry)
    (cache : PacketCache)
    (hnd : (entries.map (fun e => e.scene.sid)).Nodup)
    (e : SceneEntry) (he : e ∈ entries)
    (hc : cache e.scene.sid = none) :
    (e.scene.sid, e.scene.tick (_neutral_input fi 0) 0) ∈
        (drawLoop fi entries cache).2.1 ∧
      (drawLoop fi entries cache).1 e.scene.sid =
        some (e.scene.tick (_neutral_input fi 0) 0) ∧
      (drawLoop fi entries cache).2.2.count e.scene.sid = 1 := by
  induction entries generalizing cache with
  | nil => simp at he
  | cons h rest ih =>
      simp only [List.map_cons, List.nodup_cons] at hnd
      rcases List.mem_cons.mp he with rfl | he'
      · have hk : e.scene.sid ∉ rest.map (fun e' => e'.scene.sid) := by
          simpa using hnd.1
        have hcins :
            cacheInsert cache e.scene.sid
              (e.scene.tick (_neutral_input fi 0) 0) e.scene.sid =
              some (e.scene.tick (_neutral_input fi 0) 0) := by
          simp [cacheInsert]
        refine ⟨by simp [drawLoop, hc], ?_, ?_⟩
        · simp only [drawLoop, hc]
          exact drawLoop_cache_mono _ _ _ _ _ hcins
        · have hnb : e.scene.sid ∉ (drawLoop fi rest
              (cacheInsert cache e.scene.sid
                (e.scene.tick (_neutral_input fi 0) 0))).2.2 := by
            intro hmem
            exact hk (drawLoop_boots_sub _ _ _ _ hmem)
          simp [drawLoop, hc, List.count_cons, List.count_eq_zero.mpr hnb]
      · have hsid : e.scene.sid ≠ h.scene.sid := by
          intro hh
          exact hnd.1 (hh ▸ (List.mem_map.mpr ⟨e, he', rfl⟩))
        cases hce : cache h.scene.sid with
        | some q =>
            obtain ⟨h1, h2, h3⟩ := ih _ hnd.2 he' hc
            exact ⟨by simp only [drawLoop, hce]; right; exact h1,
              by simp only [drawLoop, hce]; exact h2,
              by simp only [drawLoop, hce]; exact h3⟩
        | none =>
            have hc' : cacheInsert cache h.scene.sid
                (h.scene.tick (_neutral_input fi 0) 0) e.scene.sid = none := by
              simp [cacheInsert, hsid, hc]
            obtain ⟨h1, h2, h3⟩ := ih _ hnd.2 he' hc'
            refine ⟨by simp only [drawLoop, hce]; right; exact h1,
              by simp only [drawLoop, hce]; exact h2, ?_⟩
            simp only [drawLoop, hce, List.count_cons, h3]
            simp [Ne.symm hsid]

/-! ## Helper lemmas about the stack operations -/

lemma popOp_concat (xs : SceneStack) (e : SceneEntry) :
    popOp (xs ++ [e]) = (xs, [HookEvent.exitHook e.scene.sid]) := by
  simp [popOp, List.getLast?_concat]

lemma cleanOp_eq (stack : SceneStack) :
    cleanOp stack =
      ([], stack.reverse.map (fun e => HookEvent.exitHook e.scene.sid)) := by
  induction stack using List.reverseRecOn with
  | nil => simp [cleanOp]
  | append_singleton xs x ih =>
      rw [cleanOp]
      simp [popOp_concat, ih]

/-! ## Demo fixtures used by witnesses -/

/-- A demo scene with identity `n` whose tick always produces packet `n`. -/
def demoScene (n : Nat) : Scene := { sid := n, tick := fun _ _ => n }

/-- A base gameplay entry: default policy (non-opaque, non-blocking). -/
def baseEntry : SceneEntry :=
  { scene_id := "game", scene := demoScene 1, is_overlay := false,
    policy := {} }

/-- A pause-menu overlay: opaque and update-blocking. -/
def pauseEntry : SceneEntry :=
  { scene_id := "pause", scene := demoScene 2, is_overlay := true,
    policy := { isOpaque := true, blocksUpdate := true } }

/-- A non-opaque but update-blocking overlay (scenes below stay visible but
stop ticking). -/
def hudEntry : SceneEntry :=
  { scene_id := "hud", scene := demoScene 3, is_overlay := true,
    policy := { isOpaque := false, blocksUpdate := true } }

/-- A demo scene factory that resolves only the id `"menu"`. -/
def demoRegistry : Registry :=
  fun sid => if sid = "menu" then some (demoScene 7) else none

/-! ## Claims -/

/-- C1: for every scene stack, `visible_entries()` returns a top-aligned
contiguous suffix of the stack; scanning from the top downward it is the run
from the nearest opaque entry (inclusive) up to the top — its bottom element
is opaque whenever any entry is opaque, and everything above that element is
non-opaque; if no entry is opaque the entire stack is returned, and an empty
stack yields an empty sequence. -/
theorem visible_entries_spec (stack : SceneStack) :
    visible_entries stack <:+ stack ∧
    (stack = [] → visible_entries stack = []) ∧
    ((∀ e ∈ stack, e.policy.isOpaque = false) →
      visible_entries stack = stack) ∧
    (∀ e ∈ (visible_entries stack).tail, e.policy.isOpaque = false) ∧
    ((∃ e ∈ stack, e.policy.isOpaque = true) →
      ∃ b rest, visible_entries stack = b :: rest ∧
        b.policy.isOpaque = true) := by
  refine ⟨scanStop_rev_suffix _ _, ?_, scanStop_rev_all _ _,
    scanStop_rev_tail _ _, scanStop_rev_head _ _⟩
  rintro rfl
  rfl

/-- Witness for C1 at the stack `[baseEntry, pauseEntry]`: the topmost opaque
entry heads the visible run. -/
theorem visible_entries_spec_witness :
    ∃ b rest, visible_entries [baseEntry, pauseEntry] = b :: rest ∧
      b.policy.isOpaque = true :=
  (visible_entries_spec [baseEntry, pauseEntry]).2.2.2.2
    ⟨pauseEntry, by simp, rfl⟩

/-- C2: for every scene stack, `update_entries()` is a top-aligned contiguous
suffix of `visible_entries()` (hence a subset in bottom-to-top order); its
bottom element is the first `blocks_update` entry met scanning the visible
run from the top (included), everything above it does not block, and if no
visible entry blocks it equals `visible_entries()`. -/
theorem update_entries_spec (stack : SceneStack) :
    update_entries stack <:+ visible_entries stack ∧
    (∀ e ∈ (update_entries stack).tail, e.policy.blocksUpdate = false) ∧
    ((∃ e ∈ visible_entries stack, e.policy.blocksUpdate = true) →
      ∃ b rest, update_entries stack = b :: rest ∧
        b.policy.blocksUpdate = true) ∧
    ((∀ e ∈ visible_entries stack, e.policy.blocksUpdate = false) →
      update_entries stack = visible_entries stack) := by
  rw [update_entries_eq]
  exact ⟨scanStop_rev_suffix _ _, scanStop_rev_tail _ _,
    scanStop_rev_head _ _, scanStop_rev_all _ _⟩

/-- Witness for C2 at the stack `[baseEntry, hudEntry]`: the update run is
headed by the topmost blocking entry of the visible run. -/
theorem update_entries_spec_witness :
    ∃ b rest, update_entries [baseEntry, hudEntry] = b :: rest ∧
      b.policy.blocksUpdate = true :=
  (update_entries_spec [baseEntry, hudEntry]).2.2.1
    ⟨hudEntry, by show hudEntry ∈ [baseEntry, hudEntry]; simp, rfl⟩

/-- C7: `change(scene_id)` on any stack first runs the exit hook of every
current entry exactly once in top-to-bottom order (discarding them all), then
pushes exactly one new non-overlay entry for `scene_id` with its enter hook
called; barring factory failure the resulting stack holds exactly that one
entry. -/
theorem change_spec (registry : Registry) (stack : SceneStack)
    (scene_id : String) (s : Scene) (h : registry scene_id = some s) :
    changeOp registry stack scene_id =
      OpResult.ok
        [{ scene_id := scene_id, scene := s, is_overlay := false,
           policy := {} }]
        (stack.reverse.map (fun e => HookEvent.exitHook e.scene.sid) ++
          [HookEvent.enter s.sid]) := by
  unfold changeOp
  rw [cleanOp_eq]
  simp [pushOp, h]

/-- Witness for C7: `change("menu")` on a two-entry stack exits both entries
top-to-bottom, then enters exactly one fresh `"menu"` entry. -/
theorem change_spec_witness :
    demoRegistry "menu" = some (demoScene 7) ∧
    changeOp demoRegistry [baseEntry, pauseEntry] "menu" =
      OpResult.ok
        [{ scene_id := "menu", scene := demoScene 7, is_overlay := false,
           policy := {} }]
        (([baseEntry, pauseEntry] : SceneStack).reverse.map
            (fun e => HookEvent.exitHook e.scene.sid) ++
          [HookEvent.enter (demoScene 7).sid]) :=
  ⟨rfl, change_spec demoRegistry [baseEntry, pauseEntry] "menu"
    (demoScene 7) rfl⟩

/-- C8: `pop()` on the empty stack is a no-op (no exception, no exit hook,
stack unchanged); on a non-empty stack it removes exactly the top entry and
runs that entry's exit hook exactly once. -/
theorem pop_spec :
    popOp ([] : SceneStack) = ([], []) ∧
    ∀ (xs : SceneStack) (e : SceneEntry),
      popOp (xs ++ [e]) = (xs, [HookEvent.exitHook e.scene.sid]) :=
  ⟨rfl, popOp_concat⟩

/-- C10: `change(scene_id)` is not atomic on factory failure — the error
propagates with the stack already emptied and every pre-call entry's exit
hook already run; `push(scene_id)` on the same failure leaves the stack
exactly as it was, with no hooks run. -/
theorem change_not_atomic_on_failure (registry : Registry)
    (stack : SceneStack) (scene_id : String)
    (h : registry scene_id = none) :
    changeOp registry stack scene_id =
      OpResult.err []
        (stack.reverse.map (fun e => HookEvent.exitHook e.scene.sid)) ∧
    ∀ (ov : Bool) (pol : Option ScenePolicy),
      pushOp registry stack scene_id ov pol = OpResult.err stack [] := by
  constructor
  · unfold changeOp
    rw [cleanOp_eq]
    simp [pushOp, h]
  · intro ov pol
    simp [pushOp, h]

/-- Witness for C10 at a two-entry stack and the unresolvable id
`"missing"`. -/
theorem change_not_atomic_witness :
    changeOp demoRegistry [baseEntry, pauseEntry] "missing" =
      OpResult.err []
        (([baseEntry, pauseEntry] : SceneStack).reverse.map
          (fun e => HookEvent.exitHook e.scene.sid)) ∧
    ∀ (ov : Bool) (pol : Option ScenePolicy),
      pushOp demoRegistry [baseEntry, pauseEntry] "missing" ov pol =
        OpResult.err [baseEntry, pauseEntry] [] :=
  change_not_atomic_on_failure demoRegistry [baseEntry, pauseEntry]
    "missing" rfl

/-! ## Helper lemmas about one frame of the scheduler -/

lemma execCmd_cache (registry : Registry) (st : LoopState) (c : Cmd)
    (st' : LoopState) (tr : List HookEvent)
    (h : execCmd registry st c = some (st', tr)) : st'.cache = st.cache := by
  cases c with
  | quitCmd => cases h; rfl
  | popScene => cases h; rfl
  | pushScene sid ov =>
      simp only [execCmd] at h
      cases hp : pushOp registry st.stack sid ov none with
      | ok s t => rw [hp] at h; cases h; rfl
      | err s t => rw [hp] at h; cases h
  | changeScene sid =>
      simp only [execCmd] at h
      cases hp : changeOp registry st.stack sid with
      | ok s t => rw [hp] at h; cases h; rfl
      | err s t => rw [hp] at h; cases h

lemma execCmds_cache (registry : Registry) (cs : List Cmd) (st : LoopState)
    (st' : LoopState) (tr : List HookEvent)
    (h : execCmds registry cs st = some (st', tr)) : st'.cache = st.cache := by
  induction cs generalizing st st' tr with
  | nil => cases h; rfl
  | cons c cs ih =>
      simp only [execCmds] at h
      cases hc : execCmd registry st c with
      | none => rw [hc] at h; cases h
      | some p =>
          obtain ⟨st1, tr1⟩ := p
          simp only [hc] at h
          cases hcs : execCmds registry cs st1 with
          | none => simp only [hcs] at h; cases h
          | some q =>
              obtain ⟨st2, tr2⟩ := q
              simp only [hcs, Option.some.injEq, Prod.mk.injEq] at h
              rw [← h.1, ih st1 st2 tr2 hcs]
              exact execCmd_cache registry st c st1 tr1 hc

/-- In a non-quit frame with a resolved input entry, the frame's observable
traces are those of the tick phase followed by the draw phase, and the
resulting cache is the draw phase's cache. -/
lemma frameStep_run (registry : Registry) (st : LoopState) (inp : InputFrame)
    (dt : ℚ) (hq : inp.quit = false) (e0 : SceneEntry)
    (h0 : input_entry st.stack = some e0) :
    (frameStep registry st inp dt).tickTrace =
      (tickPhase st.stack inp st.frame_index dt st.cache).2 ∧
    (frameStep registry st inp dt).drawTrace =
      (drawPhase st.stack st.frame_index
        (tickPhase st.stack inp st.frame_index dt st.cache).1).2.1 ∧
    (frameStep registry st inp dt).boots =
      (drawPhase st.stack st.frame_index
        (tickPhase st.stack inp st.frame_index dt st.cache).1).2.2 ∧
    (frameStep registry st inp dt).state.cache =
      (drawPhase st.stack st.frame_index
        (tickPhase st.stack inp st.frame_index dt st.cache).1).1 := by
  unfold frameStep
  rw [hq, h0]
  simp only [Bool.false_eq_true, if_false]
  set st1 : LoopState :=
    { st with
      cache := (drawPhase st.stack st.frame_index
        (tickPhase st.stack inp st.frame_index dt st.cache).1).1,
      queue := (st.queue.drain).2 } with hst1
  cases hex : execCmds registry (st.queue.drain).1 st1 with
  | none => simp
  | some p =>
      have hcache : p.1.cache = st1.cache :=
        execCmds_cache registry _ _ _ _ hex
      simp [hcache, hst1]

lemma drawPhase_eq (stack : SceneStack) (fi : Nat) (cache : PacketCache) :
    drawPhase stack fi cache = drawLoop fi (visible_entries stack) cache := rfl

lemma visible_entries_sublist (stack : SceneStack) :
    List.Sublist (visible_entries stack) stack :=
  (scanStop_rev_suffix _ _).sublist

lemma update_entries_sublist (stack : SceneStack) :
    List.Sublist (update_entries stack) stack := by
  refine List.Sublist.trans ?_ (visible_entries_sublist stack)
  rw [update_entries_eq]
  exact (scanStop_rev_suffix _ _).sublist

lemma update_getLast (stack : SceneStack) :
    (update_entries stack).getLast? = input_entry stack := by
  rw [update_entries_eq, scanStop_rev_getLast]
  rfl

/-! ## More demo fixtures (frame-level witnesses) -/

/-- A demo cache holding packet `42` for scene identity `1` only. -/
def demoCache : PacketCache := fun k => if k = 1 then some 42 else none

/-- A demo loop state: base scene below a non-opaque update-blocking overlay,
a cached packet for the base scene, one pending command. -/
def demoState : LoopState :=
  { stack := [baseEntry, hudEntry], cache := demoCache,
    queue := { _items := [Cmd.popScene] }, frame_index := 5, running := true }

/-- A real input frame with key activity and the quit flag clear. -/
def realInput : InputFrame :=
  { frame_index := 5, dt := 1/60, keys_down := [10], keys_pressed := [10],
    keys_released := [], quit := false }

/-- An input frame with the quit flag set. -/
def quitInput : InputFrame :=
  { frame_index := 5, dt := 1/60, quit := true }

/-- A fresh loop state: same stack, empty cache, empty queue, frame 0. -/
def freshState : LoopState :=
  { stack := [baseEntry, hudEntry], cache := fun _ => none,
    queue := { _items := [] }, frame_index := 0, running := true }

/-! ## Frame-level claims -/

/-- C3: on a frame in which ticking occurs (quit flag clear, input entry
resolved), the tick trace assigns the real `InputFrame` to exactly the
entries of `update_entries()` carrying the input entry's scene identity —
of which there is exactly one — and a neutral frame (same frame index and
`dt`, empty key sets, `quit=false`) to every other ticked entry; the input
entry is the top of `visible_entries()` (none when nothing is visible). -/
theorem tick_input_routing (registry : Registry) (st : LoopState)
    (inp : InputFrame) (dt : ℚ) (hq : inp.quit = false)
    (e0 : SceneEntry) (h0 : input_entry st.stack = some e0)
    (hnd : (st.stack.map (fun e => e.scene.sid)).Nodup) :
    (frameStep registry st inp dt).tickTrace =
      (update_entries st.stack).map (fun e => (e.scene.sid,
        if e.scene.sid = e0.scene.sid then inp
        else _neutral_input st.frame_index dt)) ∧
    ((update_entries st.stack).map (fun e => e.scene.sid)).count
      e0.scene.sid = 1 ∧
    input_entry st.stack = (visible_entries st.stack).getLast? ∧
    _neutral_input st.frame_index dt =
      { frame_index := st.frame_index, dt := dt, keys_down := [],
        keys_pressed := [], keys_released := [], quit := false } := by
  refine ⟨?_, ?_, rfl, rfl⟩
  · rw [(frameStep_run registry st inp dt hq e0 h0).1]
    unfold tickPhase
    rw [tickLoop_trace, h0]
    simp
  · have hmem : e0 ∈ update_entries st.stack :=
      List.mem_of_getLast?_eq_some (by rw [update_getLast, h0])
    have hnd' : ((update_entries st.stack).map
        (fun e => e.scene.sid)).Nodup :=
      List.Nodup.sublist ((update_entries_sublist st.stack).map _) hnd
    exact List.count_eq_one_of_mem hnd' (List.mem_map.mpr ⟨e0, hmem, rfl⟩)

/-- Witness for C3 at a concrete frame: the overlay entry (the input entry)
is routed the real input; it is the only update entry here. -/
theorem tick_input_routing_witness :
    (frameStep demoRegistry demoState realInput (1/60)).tickTrace =
      (update_entries demoState.stack).map (fun e => (e.scene.sid,
        if e.scene.sid = hudEntry.scene.sid then realInput
        else _neutral_input demoState.frame_index (1/60))) ∧
    ((update_entries demoState.stack).map (fun e => e.scene.sid)).count
      hudEntry.scene.sid = 1 ∧
    input_entry demoState.stack = (visible_entries demoState.stack).getLast? ∧
    _neutral_input demoState.frame_index (1/60) =
      { frame_index := demoState.frame_index, dt := 1/60, keys_down := [],
        keys_pressed := [], keys_released := [], quit := false } :=
  tick_input_routing demoRegistry demoState realInput (1/60) rfl hudEntry rfl
    (by decide)

/-- C4: the packet cache is overwritten (with the just-produced packet) at
every scene that is ticked and left untouched at every scene that is skipped,
so a scene that is visible but excluded from `update_entries()` this frame is
drawn with the packet it produced on the last frame it was ticked. -/
theorem packet_cache_persistence (registry : Registry) (st : LoopState)
    (inp : InputFrame) (dt : ℚ) (hq : inp.quit = false)
    (e0 : SceneEntry) (h0 : input_entry st.stack = some e0)
    (hnd : (st.stack.map (fun e => e.scene.sid)).Nodup)
    (e : SceneEntry) (hv : e ∈ visible_entries st.stack)
    (hu : e ∉ update_entries st.stack)
    (p : RenderPacket) (hc : st.cache e.scene.sid = some p) :
    (∀ e' ∈ update_entries st.stack,
      (tickPhase st.stack inp st.frame_index dt st.cache).1 e'.scene.sid =
        some (e'.scene.tick (if e'.scene.sid = e0.scene.sid then inp
          else _neutral_input st.frame_index dt) dt)) ∧
    (tickPhase st.stack inp st.frame_index dt st.cache).1 e.scene.sid =
      some p ∧
    (e.scene.sid, p) ∈ (frameStep registry st inp dt).drawTrace := by
  have hskip : e.scene.sid ∉
      (update_entries st.stack).map (fun x => x.scene.sid) := by
    intro hmem
    obtain ⟨e', he', hsid⟩ := List.mem_map.mp hmem
    have hes : e' ∈ st.stack := (update_entries_sublist st.stack).subset he'
    have hes2 : e ∈ st.stack := (visible_entries_sublist st.stack).subset hv
    exact hu ((List.inj_on_of_nodup_map hnd hes hes2 hsid) ▸ he')
  have htick : (tickPhase st.stack inp st.frame_index dt st.cache).1
      e.scene.sid = some p := by
    unfold tickPhase
    rw [tickLoop_cache_skip _ _ _ _ _ _ _ hskip, hc]
  refine ⟨?_, htick, ?_⟩
  · intro e' he'
    have hnd' : ((update_entries st.stack).map
        (fun x => x.scene.sid)).Nodup :=
      List.Nodup.sublist ((update_entries_sublist st.stack).map _) hnd
    unfold tickPhase
    rw [tickLoop_cache_hit _ _ _ _ _ _ hnd' e' he', h0]
    simp
  · rw [(frameStep_run registry st inp dt hq e0 h0).2.1, drawPhase_eq]
    exact drawLoop_draw_mem _ _ _ _ _ hv htick

/-- Witness for C4: the base scene is visible below the non-opaque blocking
overlay, is skipped by the tick phase, and is drawn with its cached packet
`42`. -/
theorem packet_cache_persistence_witness :
    (∀ e' ∈ update_entries demoState.stack,
      (tickPhase demoState.stack realInput demoState.frame_index (1/60)
          demoState.cache).1 e'.scene.sid =
        some (e'.scene.tick (if e'.scene.sid = hudEntry.scene.sid
          then realInput
          else _neutral_input demoState.frame_index (1/60)) (1/60))) ∧
    (tickPhase demoState.stack realInput demoState.frame_index (1/60)
        demoState.cache).1 baseEntry.scene.sid = some 42 ∧
    (baseEntry.scene.sid, 42) ∈
      (frameStep demoRegistry demoState realInput (1/60)).drawTrace :=
  packet_cache_persistence demoRegistry demoState realInput (1/60) rfl
    hudEntry rfl (by decide) baseEntry
    (show baseEntry ∈ [baseEntry, hudEntry] from List.mem_cons_self _ _)
    (fun hmem => absurd
      (congrArg (fun e => e.scene.sid)
        (List.mem_singleton.mp (show baseEntry ∈ [hudEntry] from hmem)))
      (by decide))
    42 rfl

/-- C9: a visible entry whose scene has no cached packet after the tick phase
(visible but never yet ticked) is ticked exactly once during the draw phase,
with a neutral zero-`dt` input frame, purely to obtain a packet; that packet
is cached and drawn.  The frame's real `dt` is arbitrary and unused by the
bootstrap (it ticks with `dt = 0` regardless). -/
theorem bootstrap_draw (registry : Registry) (st : LoopState)
    (inp : InputFrame) (dt : ℚ) (hq : inp.quit = false)
    (e0 : SceneEntry) (h0 : input_entry st.stack = some e0)
    (hnd : (st.stack.map (fun e => e.scene.sid)).Nodup)
    (e : SceneEntry) (hv : e ∈ visible_entries st.stack)
    (hu : e ∉ update_entries st.stack)
    (hc : st.cache e.scene.sid = none) :
    (e.scene.sid, e.scene.tick (_neutral_input st.frame_index 0) 0) ∈
      (frameStep registry st inp dt).drawTrace ∧
    (frameStep registry st inp dt).state.cache e.scene.sid =
      some (e.scene.tick (_neutral_input st.frame_index 0) 0) ∧
    (frameStep registry st inp dt).boots.count e.scene.sid = 1 := by
  have hskip : e.scene.sid ∉
      (update_entries st.stack).map (fun x => x.scene.sid) := by
    intro hmem
    obtain ⟨e', he', hsid⟩ := List.mem_map.mp hmem
    have hes : e' ∈ st.stack := (update_entries_sublist st.stack).subset he'
    have hes2 : e ∈ st.stack := (visible_entries_sublist st.stack).subset hv
    exact hu ((List.inj_on_of_nodup_map hnd hes hes2 hsid) ▸ he')
  have htick : (tickPhase st.stack inp st.frame_index dt st.cache).1
      e.scene.sid = none := by
    unfold tickPhase
    rw [tickLoop_cache_skip _ _ _ _ _ _ _ hskip, hc]
  have hndvis : ((visible_entries st.stack).map
      (fun x => x.scene.sid)).Nodup :=
    List.Nodup.sublist ((visible_entries_sublist st.stack).map _) hnd
  obtain ⟨h1, h2, h3⟩ := drawLoop_bootstrap st.frame_index
    (visible_entries st.stack)
    (tickPhase st.stack inp st.frame_index dt st.cache).1 hndvis e hv htick
  obtain ⟨_, hd, hb, hcache⟩ := frameStep_run registry st inp dt hq e0 h0
  rw [drawPhase_eq] at hd hb hcache
  exact ⟨hd ▸ h1, by rw [hcache]; exact h2, by rw [hb]; exact h3⟩

/-- Witness for C9 on a fresh state (empty cache): the skipped base scene is
bootstrap-ticked once with a zero-`dt` neutral frame, cached and drawn. -/
theorem bootstrap_draw_witness :
    (baseEntry.scene.sid,
        baseEntry.scene.tick (_neutral_input freshState.frame_index 0) 0) ∈
      (frameStep demoRegistry freshState realInput (1/60)).drawTrace ∧
    (frameStep demoRegistry freshState realInput (1/60)).state.cache
        baseEntry.scene.sid =
      some (baseEntry.scene.tick (_neutral_input freshState.frame_index 0) 0) ∧
    (frameStep demoRegistry freshState realInput (1/60)).boots.count
      baseEntry.scene.sid = 1 :=
  bootstrap_draw demoRegistry freshState realInput (1/60) rfl
    hudEntry rfl (by decide) baseEntry
    (show baseEntry ∈ [baseEntry, hudEntry] from List.mem_cons_self _ _)
    (fun hmem => absurd
      (congrArg (fun e => e.scene.sid)
        (List.mem_singleton.mp (show baseEntry ∈ [hudEntry] from hmem)))
      (by decide))
    rfl

/-- C5 fails on the code: at a concrete frame whose input has the quit flag
set — with a nonempty update run and a pending buffered command — the loop
`break`s immediately after enqueueing the quit command: nothing is ticked,
nothing is drawn, the command queue is not drained (the pending command and
the just-enqueued quit command are still buffered, unexecuted), and the
running flag is untouched; so the remainder of the frame's cycle does not
run and quitting does not take effect via the command drain. -/
theorem quit_defer_counterexample :
    quitInput.quit = true ∧
    update_entries demoState.stack ≠ [] ∧
    demoState.queue._items = [Cmd.popScene] ∧
    (frameStep demoRegistry demoState quitInput (1/60)).halted = true ∧
    (frameStep demoRegistry demoState quitInput (1/60)).tickTrace = [] ∧
    (frameStep demoRegistry demoState quitInput (1/60)).drawTrace = [] ∧
    (frameStep demoRegistry demoState quitInput (1/60)).drained = [] ∧
    (frameStep demoRegistry demoState quitInput (1/60)).state.queue._items =
      [Cmd.popScene, Cmd.quitCmd] ∧
    (frameStep demoRegistry demoState quitInput (1/60)).state.running =
      true := by
  refine ⟨rfl, ?_, rfl, rfl, rfl, rfl, rfl, rfl, rfl⟩
  intro h
  exact List.noConfusion (show ([hudEntry] : List SceneEntry) = [] from h)

/-- C5 (amended): when the per-frame input snapshot's quit flag is set, the
Frame Scheduler enqueues a quit command **and breaks the loop immediately**:
the remainder of that frame's cycle (ticking, drawing, command draining) does
not run, the quit command stays buffered unexecuted, and the frame index and
running flag are untouched. -/
theorem quit_enqueue_and_break (registry : Registry) (st : LoopState)
    (inp : InputFrame) (dt : ℚ) (h : inp.quit = true) :
    frameStep registry st inp dt =
      { state := { st with queue := st.queue.push Cmd.quitCmd },
        halted := true, errored := false, tickTrace := [], drawTrace := [],
        boots := [], drained := [], hooks := [] } ∧
    (st.queue.push Cmd.quitCmd)._items = st.queue._items ++ [Cmd.quitCmd] := by
  constructor
  · simp [frameStep, h]
  · rfl

/-- Witness for the amended C5 at a concrete quit frame. -/
theorem quit_enqueue_and_break_witness :
    frameStep demoRegistry demoState quitInput (1/60) =
      { state := { demoState with
          queue := demoState.queue.push Cmd.quitCmd },
        halted := true, errored := false, tickTrace := [], drawTrace := [],
        boots := [], drained := [], hooks := [] } ∧
    (demoState.queue.push Cmd.quitCmd)._items =
      demoState.queue._items ++ [Cmd.quitCmd] :=
  quit_enqueue_and_break demoRegistry demoState quitInput (1/60) rfl

lemma foldl_push_items {α : Type} (l : List α) (q : CommandQueue α) :
    (l.foldl CommandQueue.push q)._items = q._items ++ l := by
  induction l generalizing q with
  | nil => simp
  | cons x xs ih => simp [CommandQueue.push, ih]

lemma runAll_items {α : Type} (effect : α → List α) (batch : List α)
    (q : CommandQueue α) :
    (batch.foldl (fun acc c => (effect c).foldl CommandQueue.push acc)
        q)._items = q._items ++ batch.flatMap effect := by
  induction batch generalizing q with
  | nil => simp
  | cons c cs ih => simp [ih, foldl_push_items]

/-- C6: `drain()` returns the buffered commands in enqueue (FIFO) order and
resets the buffer to empty before the batch executes; consequently every
command enqueued during the execution of a drained batch lands in the fresh
buffer — it is not part of the executing batch and waits for the next
frame's drain. -/
theorem drain_fifo_and_defers {α : Type} (effect : α → List α)
    (q : CommandQueue α) :
    (CommandQueue.drain q).1 = q._items ∧
    (CommandQueue.drain q).2._items = [] ∧
    (drainAndRun effect q).1 = q._items ∧
    (drainAndRun effect q).2._items = q._items.flatMap effect := by
  refine ⟨rfl, rfl, rfl, ?_⟩
  unfold drainAndRun CommandQueue.drain
  simp [runAll_items]

end MiniArcade
